import Mathlib

/-!
Verification of the ignis JVM core against its specification.

The definitions below are a shallow embedding of the Rust sources:

* `src/classfile/constant_pool.rs` — constant pool entries, the two-slot
  rule, `get` / `get_with`, and the byte-level constructor `ConstantPool::new`;
* `src/classfile/attributes.rs` — the name dispatch of `Attribute::new`;
* `src/vm/runtime/heap.rs` — `Array::size`, `Array::get`,
  `Heap::get_array_value`, `Heap::get_field_value`;
* `src/vm/interpreter/stack.rs` — the bounded operand `Stack`, the
  `StackFrame`, and the `StackValue` implementations for `i32`/`i64`/`f64`;
* `src/vm/interpreter/instructions/mod.rs` and the per-group handlers —
  the opcode range dispatcher, the `math.rs` division/remainder arms and the
  `stores.rs` array-store arms.

Machine integers are modelled as `Int` carrying the signed value, with the
`as iN` / `as uN` casts made explicit through `wrap32` / `wrap64` / `asI32` /
`asI64` (all moduli written as numerals: 4294967296 = 2^32,
18446744073709551616 = 2^64).  `f32` / `f64` payloads are carried as their
IEEE bit patterns, exactly as the source moves them with
`to_bits` / `from_bits`.  Rust paths that panic (`todo!`, `unreachable!`,
`unimplemented!`, divide-by-zero) are modelled by dedicated constructors of
the outcome types.
-/

namespace Ignis

/-- Low 32 bits of an integer, as a non-negative integer: the `as u32`
reinterpretation of any machine integer (Lean `Int.emod` by a positive
modulus is non-negative). -/
def wrap32 (x : Int) : Int := x % 4294967296

/-- Low 64 bits of an integer, as a non-negative integer: the `as u64`
reinterpretation. -/
def wrap64 (x : Int) : Int := x % 18446744073709551616

/-- Two-complement truncation to a signed 32-bit value: the Rust `as i32`
cast applied to any machine integer. -/
def asI32 (x : Int) : Int :=
  if wrap32 x < 2147483648 then wrap32 x else wrap32 x - 4294967296

/-- Two-complement truncation to a signed 64-bit value: the Rust `as i64`
cast applied to any machine integer. -/
def asI64 (x : Int) : Int :=
  if wrap64 x < 9223372036854775808 then wrap64 x else wrap64 x - 18446744073709551616

/-- Big-endian value of a byte list (used by the `read::<T>` helper of
`src/classfile/mod.rs`, which reads `size_of::<T>()` bytes big-endian). -/
def beVal (bytes : List Nat) : Nat :=
  bytes.foldl (fun acc b => acc * 256 + b) 0

/-- Little-endian value of a byte list (used by `i32::from_ne_bytes` in
`Array::get`; the supported hosts are little-endian, and the source guards
the big-endian layout behind `cfg!(target_endian = "big")`, which is false). -/
def leVal (bytes : List Nat) : Nat :=
  bytes.foldr (fun b acc => acc * 256 + b) 0

/-- Reading `n` bytes from the front of a byte stream, as the binary reader
`read::<T>` does; `none` models the `Io` error when the source is exhausted. -/
def readBytes (n : Nat) (bytes : List Nat) : Option (Nat × List Nat) :=
  if bytes.length < n then none
  else some (beVal (bytes.take n), bytes.drop n)

/-! ## Constant pool (`src/classfile/constant_pool.rs`) -/

/-- Entry of the constant pool, mirroring `ConstantPoolEntry` in
`constant_pool.rs`.  `Float` and `Double` carry the raw IEEE bit pattern of
the payload. -/
inductive ConstantPoolEntry where
  | Utf8 (s : String)
  | Integer (v : Int)
  | Float (bits : Nat)
  | Long (v : Int)
  | Double (bits : Nat)
  | Class (nameIdx : Nat)
  | StringRef (utf8Idx : Nat)
  | FieldRef (classIdx natIdx : Nat)
  | MethodRef (classIdx natIdx : Nat)
  | InterfaceMethodRef (classIdx natIdx : Nat)
  | NameAndType (nameIdx descIdx : Nat)
  | MethodHandle (kind refIdx : Nat)
  | MethodType (descIdx : Nat)
  | Dynamic (bootstrapIdx natIdx : Nat)
  | InvokeDynamic (bootstrapIdx natIdx : Nat)
  | Module (nameIdx : Nat)
  | Package (nameIdx : Nat)
deriving DecidableEq, Repr

/-- Error enum `ConstantPoolError` of `constant_pool.rs` (the `Formatter`
variant only wraps a formatting error and is not needed here). -/
inductive ConstantPoolError where
  | InvalidIndex (i : Nat)
  | InvalidAttr (i : Nat)
  | UnusableSlot (i : Nat)
deriving DecidableEq, Repr

/-- Predicate `uses_two_slots` of `constant_pool.rs`: `Long` and `Double`
occupy two constant-pool slots. -/
def ConstantPoolEntry.uses_two_slots : ConstantPoolEntry → Bool
  | .Long _ => true
  | .Double _ => true
  | _ => false

/-- The pool is its ordered entry list; `none` is a reserved (unreadable)
slot, exactly the `Option<ConstantPoolEntry>` of the source. -/
abbrev ConstantPool := List (Option ConstantPoolEntry)

/-- Method `ConstantPool::push`: append the entry, then append a reserved
`None` slot when the entry uses two slots. -/
def ConstantPool.push (pool : ConstantPool) (entry : ConstantPoolEntry) : ConstantPool :=
  (pool ++ [some entry]) ++ (if entry.uses_two_slots then [none] else [])

/-- Method `ConstantPool::get_with` / `ConstantPool::get` (1-based):
index 0 or an index beyond the entry list is `InvalidIndex`; a reserved
slot is `UnusableSlot`; otherwise the stored entry is returned. -/
def ConstantPool.get (pool : ConstantPool) (index : Nat) :
    Except ConstantPoolError ConstantPoolEntry :=
  if index = 0 ∨ pool.length < index then .error (.InvalidIndex index)
  else
    match pool.get? (index - 1) with
    | some (some entry) => .ok entry
    | some none => .error (.UnusableSlot index)
    | none => .error (.InvalidIndex index)

/-- Outcome of `ConstantPool::new`.  `panicTodo` is the `todo!()` the source
executes for tag 1 (Utf8); `panicUnrecognizedTag` is the `unreachable!()` on
an unknown tag; `ioError` is the propagated `read` failure. -/
inductive CpNewOutcome where
  | ok (pool : ConstantPool) (rest : List Nat)
  | ioError
  | panicTodo
  | panicUnrecognizedTag (tag : Nat)
deriving DecidableEq, Repr

/-- Loop body of `ConstantPool::new`: `remaining` is `count - idx`; tags
5 and 6 (Long/Double) advance `idx` by 2, consuming two loop turns, with
the exhausted case written out so the recursion stays structural.  Each
payload is read with the big-endian `read::<T>` helper; signed payloads go
through `asI32` / `asI64`.  Tag 1 (Utf8) is `todo!()` in the source and
therefore maps to `panicTodo` without consuming any payload bytes. -/
def cpParseEntries : Nat → List Nat → ConstantPool → CpNewOutcome
  | 0, bytes, pool => .ok pool bytes
  | remaining + 1, bytes, pool =>
    match bytes with
    | [] => .ioError
    | tag :: rest =>
      match tag with
      | 1 => .panicTodo
      | 3 =>
        match readBytes 4 rest with
        | none => .ioError
        | some (v, rest2) =>
          cpParseEntries remaining rest2 (pool.push (.Integer (asI32 v)))
      | 4 =>
        match readBytes 4 rest with
        | none => .ioError
        | some (v, rest2) => cpParseEntries remaining rest2 (pool.push (.Float v))
      | 5 =>
        match readBytes 8 rest with
        | none => .ioError
        | some (v, rest2) =>
          match remaining with
          | 0 => .ok (pool.push (.Long (asI64 v))) rest2
          | r + 1 => cpParseEntries r rest2 (pool.push (.Long (asI64 v)))
      | 6 =>
        match readBytes 8 rest with
        | none => .ioError
        | some (v, rest2) =>
          match remaining with
          | 0 => .ok (pool.push (.Double v)) rest2
          | r + 1 => cpParseEntries r rest2 (pool.push (.Double v))
      | 7 =>
        match readBytes 2 rest with
        | none => .ioError
        | some (v, rest2) => cpParseEntries remaining rest2 (pool.push (.Class v))
      | 8 =>
        match readBytes 2 rest with
        | none => .ioError
        | some (v, rest2) => cpParseEntries remaining rest2 (pool.push (.StringRef v))
      | 9 =>
        match readBytes 2 rest with
        | none => .ioError
        | some (a, rest2) =>
          match readBytes 2 rest2 with
          | none => .ioError
          | some (b, rest3) => cpParseEntries remaining rest3 (pool.push (.FieldRef a b))
      | 10 =>
        match readBytes 2 rest with
        | none => .ioError
        | some (a, rest2) =>
          match readBytes 2 rest2 with
          | none => .ioError
          | some (b, rest3) => cpParseEntries remaining rest3 (pool.push (.MethodRef a b))
      | 11 =>
        match readBytes 2 rest with
        | none => .ioError
        | some (a, rest2) =>
          match readBytes 2 rest2 with
          | none => .ioError
          | some (b, rest3) =>
            cpParseEntries remaining rest3 (pool.push (.InterfaceMethodRef a b))
      | 12 =>
        match readBytes 2 rest with
        | none => .ioError
        | some (a, rest2) =>
          match readBytes 2 rest2 with
          | none => .ioError
          | some (b, rest3) => cpParseEntries remaining rest3 (pool.push (.NameAndType a b))
      | 15 =>
        match readBytes 1 rest with
        | none => .ioError
        | some (a, rest2) =>
          match readBytes 2 rest2 with
          | none => .ioError
          | some (b, rest3) => cpParseEntries remaining rest3 (pool.push (.MethodHandle a b))
      | 16 =>
        match readBytes 2 rest with
        | none => .ioError
        | some (v, rest2) => cpParseEntries remaining rest2 (pool.push (.MethodType v))
      | 17 =>
        match readBytes 2 rest with
        | none => .ioError
        | some (a, rest2) =>
          match readBytes 2 rest2 with
          | none => .ioError
          | some (b, rest3) => cpParseEntries remaining rest3 (pool.push (.Dynamic a b))
      | 18 =>
        match readBytes 2 rest with
        | none => .ioError
        | some (a, rest2) =>
          match readBytes 2 rest2 with
          | none => .ioError
          | some (b, rest3) => cpParseEntries remaining rest3 (pool.push (.InvokeDynamic a b))
      | 19 =>
        match readBytes 2 rest with
        | none => .ioError
        | some (v, rest2) => cpParseEntries remaining rest2 (pool.push (.Module v))
      | 20 =>
        match readBytes 2 rest with
        | none => .ioError
        | some (v, rest2) => cpParseEntries remaining rest2 (pool.push (.Package v))
      | other => .panicUnrecognizedTag other

/-- Constructor `ConstantPool::new`: read the two-byte big-endian
`pool_count`, then run the entry loop with `idx = 0` (the source iterates
while `idx < count`). -/
def ConstantPool.new (bytes : List Nat) : CpNewOutcome :=
  match readBytes 2 bytes with
  | none => .ioError
  | some (count, rest) => cpParseEntries count rest []

/-! ## Attribute decoder name dispatch (`src/classfile/attributes.rs`) -/

/-- Outcome of the name dispatch in `Attribute::new`: `recognized` stands
for the match arm that parses the payload of that attribute name, and
`panicUnimplemented` is the fallthrough arm, which in the source is
`unimplemented!("Parsing for Attribute: ... is not yet implemented")`.
There is no arm that skips `length` bytes. -/
inductive AttributeDispatch where
  | recognized (name : String)
  | panicUnimplemented (name : String)
deriving DecidableEq, Repr

/-- Name dispatch of `Attribute::new` (attributes.rs, the `match
attribute_name` expression): the literal string arms of the source, in
source order, with every unknown name falling through to the
`unimplemented!` panic. -/
def attributeNewDispatch (name : String) : AttributeDispatch :=
  match name with
  | "ConstantValue" => .recognized name
  | "Code" => .recognized name
  | "StackMapTable" => .recognized name
  | "Exceptions" => .recognized name
  | "InnerClasses" => .recognized name
  | "EnclosingMethod" => .recognized name
  | "Synthetic" => .recognized name
  | "Deprecated" => .recognized name
  | "Signature" => .recognized name
  | "SourceFile" => .recognized name
  | "LineNumberTable" => .recognized name
  | "LocalVariableTable" => .recognized name
  | "LocalVariableTypeTable" => .recognized name
  | "RuntimeVisibleAnnotations" => .recognized name
  | "RuntimeInvisibleAnnotations" => .recognized name
  | "AnnotationDefault" => .recognized name
  | "MethodParameters" => .recognized name
  | "NestHost" => .recognized name
  | "NestMembers" => .recognized name
  | "Record" => .recognized name
  | _ => .panicUnimplemented name

/-! ## Runtime errors (`src/vm/runtime/mod.rs`) -/

/-- Enum `RuntimeError` of `runtime/mod.rs` (the source spells the variant
`InvalidObjectAcess`; the spelling is kept). -/
inductive RuntimeError where
  | MethodAreaInitialised
  | MethodNotFound (signature : String)
  | InvalidObjectAcess (classname field : String)
  | MissingCodeContext (classname signature : String)
  | InvalidArrayEntrySize (size : Nat)
  | InvalidArrayAccess (index : Nat)
deriving DecidableEq, Repr

/-! ## Heap (`src/vm/runtime/heap.rs`) -/

/-- Struct `Array` of heap.rs: the array descriptor name and the backing
byte vector. -/
structure ArrayObj where
  name : String
  value : List Nat
deriving DecidableEq, Repr

/-- Field map of an `Instance`: class name to (field name to the field
value).  A `FieldValue` is its vector of 32-bit slots (`FieldValue::value`
clones that vector; the reader/writer lock adds nothing single-threaded). -/
structure Instance where
  name : String
  fields : List (String × List (String × List Int))
deriving DecidableEq, Repr

/-- Enum `HeapValue` of heap.rs. -/
inductive HeapValue where
  | Object (inst : Instance)
  | Array (a : ArrayObj)
deriving DecidableEq, Repr

/-- Heap storage: object reference to heap value (the `IndexMap<i32,
HeapValue>` keyed by handle). -/
abbrev HeapObjects := List (Int × HeapValue)

/-- Outcome of `Array::get` / `Heap::get_array_value` /
`Heap::get_field_value`: `ok` carries the `Vec<i32>` of slots,
`error` the `RuntimeError`, and `panicSlice` models the Rust panic of the
out-of-bounds slice `&self.value[offset..offset + size]` (also reached when
a negative index is cast to a huge `usize`). -/
inductive SlotsOutcome where
  | ok (slots : List Int)
  | error (e : RuntimeError)
  | panicSlice
deriving DecidableEq, Repr

/-- Function `Array::size`: element size in bytes by array descriptor name,
defaulting to 4 for object references. -/
def ArrayObj.size (name : String) : Nat :=
  match name with
  | "[B" => 1
  | "[C" => 2
  | "[D" => 8
  | "[F" => 4
  | "[I" => 4
  | "[J" => 8
  | "[S" => 2
  | "[Z" => 1
  | _ => 4

/-- Method `Array::get`.  The source matches `size` against the exclusive
range `1..4` (sizes 1, 2 and 3), then `8`, and every other size — including
4 — is `Err(InvalidArrayEntrySize(size))`.  The byte-to-slot decoding is the
little-endian branch of the `cfg!(target_endian = "big")` tests: for sizes
below 4 the slice is copied into the low bytes of a zeroed 4-byte buffer
(hence zero-extension), for size 8 the source builds
`hi = from_ne_bytes(bytes 0..4)`, `lo = from_ne_bytes(bytes 4..8)` and
returns `vec![lo, hi]`. -/
def ArrayObj.get (a : ArrayObj) (index : Int) : SlotsOutcome :=
  let size := ArrayObj.size a.name
  if index < 0 then .panicSlice
  else
    let offset := index.toNat * size
    if a.value.length < offset + size then .panicSlice
    else
      let slice := (a.value.drop offset).take size
      if 1 ≤ size ∧ size < 4 then .ok [asI32 (leVal slice)]
      else if size = 8 then
        let hi := asI32 (leVal (slice.take 4))
        let lo := asI32 (leVal (slice.drop 4))
        .ok [lo, hi]
      else .error (.InvalidArrayEntrySize size)

/-- Method `Heap::get_array_value`: look the handle up; anything that is
not an `Array` is `InvalidArrayAccess(index as usize)`. -/
def Heap.get_array_value (objects : HeapObjects) (array_ref index : Int) : SlotsOutcome :=
  match objects.lookup array_ref with
  | some (.Array a) => a.get index
  | _ => .error (.InvalidArrayAccess (wrap64 index).toNat)

/-- Method `Instance::lookup_field`: find the position of `from` among the
per-class field maps, keep the maps up to and including it, and search them
most-derived-first for `field`. -/
def Instance.lookup_field (inst : Instance) (from_ field : String) : Option (List Int) :=
  match inst.fields.findIdx? (fun p => p.1 = from_) with
  | some index =>
    ((inst.fields.take (index + 1)).reverse).findSome? (fun p => p.2.lookup field)
  | none => none

/-- Method `Instance::get_value`: a missing field is `InvalidObjectAcess`. -/
def Instance.get_value (inst : Instance) (classname field : String) :
    Except RuntimeError (List Int) :=
  match inst.lookup_field classname field with
  | some v => .ok v
  | none => .error (.InvalidObjectAcess classname field)

/-- Method `Heap::get_field_value`.  The source takes `&self` (the heap is
read only and cannot change) and contains no panicking operation, which the
embedding reflects by being a total function of the heap value: reference 0
is rejected up front, and any handle that does not resolve to an `Object`
falls to the `_` arm, both yielding `InvalidObjectAcess` with the class and
field names. -/
def Heap.get_field_value (objects : HeapObjects) (obj_ref : Int)
    (classname field : String) : Except RuntimeError (List Int) :=
  if obj_ref = 0 then .error (.InvalidObjectAcess classname field)
  else
    match objects.lookup obj_ref with
    | some (.Object inst) => inst.get_value classname field
    | _ => .error (.InvalidObjectAcess classname field)

/-! ## Operand stack and frames (`src/vm/interpreter/stack.rs`) -/

/-- Enum `StackError` of stack.rs. -/
inductive StackError where
  | ExceededStackSize
  | StackUnderflow
  | EmptyStack
deriving DecidableEq, Repr

/-- Struct `Stack<T>` with `T = ValueRef = i32`: a capacity bound and the
backing vector.  The Rust `Vec` pushes and pops at its end; the list is
kept top-first, so the list head is the vector end. -/
structure Stack where
  capacity : Nat
  inner : List Int
deriving DecidableEq, Repr

/-- Method `Stack::push`: refuse with `ExceededStackSize` when the vector
already holds `capacity` elements (the source checks
`capacity <= inner.len()`), leaving the contents untouched. -/
def Stack.push (s : Stack) (value : Int) : Except StackError Stack :=
  if s.capacity ≤ s.inner.length then .error .ExceededStackSize
  else .ok ⟨s.capacity, value :: s.inner⟩

/-- Method `Stack::pop`: `Vec::pop`, `none` on an empty vector. -/
def Stack.pop (s : Stack) : Option (Int × Stack) :=
  match s.inner with
  | [] => none
  | v :: rest => some (v, ⟨s.capacity, rest⟩)

/-- Struct `StackFrame` of stack.rs (the shared `Arc` wrappers around the
bytecode and class name carry no semantics single-threaded).  The field
`vars` is the source field `variables`, whose name Lean reserves. -/
structure StackFrame where
  pc : Nat
  ex_pc : Option Nat
  vars : List Int
  operand_stack : Stack
  bytecode : List Nat
  current_classname : String
deriving DecidableEq, Repr

/-- Constructor `StackFrame::new`: `pc = 0`, no saved `ex_pc`, local
variables zero-filled at length `variables_size`, an empty operand stack of
capacity `stack_size`. -/
def StackFrame.new (variables_size stack_size : Nat) (bytecode : List Nat)
    (current_classname : String) : StackFrame :=
  ⟨0, none, List.replicate variables_size 0, ⟨stack_size, []⟩, bytecode, current_classname⟩

/-- Method `StackFrame::push_ref` as an `Except`: delegate to
`Stack::push`. -/
def StackFrame.push_ref (f : StackFrame) (v : Int) : Except StackError StackFrame :=
  match f.operand_stack.push v with
  | .ok s => .ok { f with operand_stack := s }
  | .error e => .error e

/-- Method `StackFrame::pop_ref`: `Stack::pop`, `EmptyStack` when the
operand stack is empty. -/
def StackFrame.pop_ref (f : StackFrame) : Except StackError (Int × StackFrame) :=
  match f.operand_stack.pop with
  | some (v, s) => .ok (v, { f with operand_stack := s })
  | none => .error .EmptyStack

/-- Function `from_i32_to_i64` of stack.rs: the source computes
`((h as i64) << 32) | (l as u32 as i64)`.  Bitwise, `(h as i64) << 32` has
its low 32 bits zero and agrees with `h * 2^32` modulo `2^64`, and
`l as u32` is `wrap32 l`, so the disjunction of the two is their sum; the
final `i64` is the signed reading of that 64-bit pattern, `asI64`. -/
def from_i32_to_i64 (l h : Int) : Int :=
  asI64 (h * 4294967296 + wrap32 l)

/-- Implementation `StackValue for i64`, method `push_onto`:
`l = *self as i32` is `asI32 x`; `h = (*self >> 32) as i32` is the
arithmetic shift truncated to 32 bits, which on the 64-bit pattern
`wrap64 x` is `asI32 (wrap64 x / 2^32)`.  The low word is pushed first,
then the high word. -/
def i64_push_onto (x : Int) (f : StackFrame) : Except StackError StackFrame :=
  (f.push_ref (asI32 x)).bind fun f1 => f1.push_ref (asI32 (wrap64 x / 4294967296))

/-- Implementation `StackValue for i64`, method `pop_from`: pop the high
word, then the low word, and reassemble with `from_i32_to_i64 l h`. -/
def i64_pop_from (f : StackFrame) : Except StackError (Int × StackFrame) :=
  (f.pop_ref).bind fun p =>
    (p.2.pop_ref).map fun q => (from_i32_to_i64 q.1 p.1, q.2)

/-- Implementation `StackValue for f64`, method `push_onto`: the source
pushes `self.to_bits() as i64`; the value is carried as its IEEE bit
pattern `bits`, so the pushed `i64` is `asI64 bits`. -/
def f64_push_onto (bits : Nat) (f : StackFrame) : Except StackError StackFrame :=
  i64_push_onto (asI64 bits) f

/-- Implementation `StackValue for f64`, method `pop_from`: pop an `i64`
value `v` and return `f64::from_bits(v as u64)`, i.e. the float whose bit
pattern is `wrap64 v`. -/
def f64_pop_from (f : StackFrame) : Except StackError (Nat × StackFrame) :=
  (i64_pop_from f).map fun p => ((wrap64 p.1).toNat, p.2)

/-- Implementation `StackValue for i32`, method `from_slice`: `value[0]`
(the source indexes the slot vector; every `Ok` result of `Array::get`
holds one or two slots, so the index is in bounds there). -/
def from_slice_i32 (slots : List Int) : Int := slots.headD 0

/-- Implementation `StackValue for i64`, method `from_slice`:
`(h, l) = (value[0], value[1])`, then `from_i32_to_i64 l h`. -/
def from_slice_i64 (slots : List Int) : Int :=
  from_i32_to_i64 (slots.getD 1 0) (slots.getD 0 0)

/-! ## Opcode range dispatch (`src/vm/interpreter/instructions/mod.rs`) -/

/-- Handler group selected by the dispatcher `process` of
instructions/mod.rs.  `fatalUnrecognized` is its
`_ => unreachable!("Tried to process: ... code")` arm. -/
inductive DispatchRoute where
  | constants
  | loads
  | stores
  | stackManip
  | math
  | fatalUnrecognized
deriving DecidableEq, Repr

/-- Dispatcher `process` of instructions/mod.rs, by opcode byte: the match
has exactly the arms `0..=20`, `21..=53`, `54..=86`, `87..=95`, `96..=132`
and the fatal catch-all.  No arm routes to the conversions or comparisons
handlers. -/
def instructionsProcessRoute (code : Nat) : DispatchRoute :=
  if code ≤ 20 then .constants
  else if code ≤ 53 then .loads
  else if code ≤ 86 then .stores
  else if code ≤ 95 then .stackManip
  else if code ≤ 132 then .math
  else .fatalUnrecognized

/-! ## Arithmetic handler (`src/vm/interpreter/instructions/math.rs`) -/

/-- Outcome of a math.rs arm on the operand stack.  `panicDivideByZero`
models the Rust panic raised by `wrapping_div` / `wrapping_rem` on a zero
divisor; `otherArm` stands for the arms of `process` other than the four
integer division/remainder ones, which are not needed by any claim. -/
inductive MathOutcome where
  | ok (s : Stack)
  | stackError (e : StackError)
  | panicDivideByZero
  | otherArm
deriving DecidableEq, Repr

/-- Rust `i32::wrapping_div`: panics on a zero divisor (`none`); otherwise
truncating division with the single overflowing case `MIN / -1` wrapped,
which `asI32` of the exact truncating quotient captures. -/
def wrapping_div_i32 (a b : Int) : Option Int :=
  if b = 0 then none else some (asI32 (Int.tdiv a b))

/-- Rust `i32::wrapping_rem`: panics on a zero divisor; otherwise the
remainder of truncating division (sign of the dividend), wrapped. -/
def wrapping_rem_i32 (a b : Int) : Option Int :=
  if b = 0 then none else some (asI32 (Int.tmod a b))

/-- Rust `i64::wrapping_div`. -/
def wrapping_div_i64 (a b : Int) : Option Int :=
  if b = 0 then none else some (asI64 (Int.tdiv a b))

/-- Rust `i64::wrapping_rem`. -/
def wrapping_rem_i64 (a b : Int) : Option Int :=
  if b = 0 then none else some (asI64 (Int.tmod a b))

/-- Method `StackFrame::binary_op` specialised to one-slot operands: pop
`b` (top), pop `a`, apply `op a b`, push the result; an exhausted stack is
`EmptyStack`.  The `op` returning `none` is the divide-by-zero panic inside
the closure. -/
def binary_op_i32 (op : Int → Int → Option Int) (s : Stack) : MathOutcome :=
  match s.pop with
  | none => .stackError .EmptyStack
  | some (b, s1) =>
    match s1.pop with
    | none => .stackError .EmptyStack
    | some (a, s2) =>
      match op a b with
      | none => .panicDivideByZero
      | some v =>
        match s2.push v with
        | .ok s3 => .ok s3
        | .error e => .stackError e

/-- Two-slot pop on the bare stack, as the `i64` `pop_from` does: high word
first, then low, reassembled with `from_i32_to_i64`. -/
def Stack.popI64 (s : Stack) : Option (Int × Stack) :=
  match s.pop with
  | none => none
  | some (h, s1) =>
    match s1.pop with
    | none => none
    | some (l, s2) => some (from_i32_to_i64 l h, s2)

/-- Two-slot push on the bare stack, as the `i64` `push_onto` does: low
word first, then high. -/
def Stack.pushI64 (s : Stack) (x : Int) : Except StackError Stack :=
  (s.push (asI32 x)).bind fun s1 => s1.push (asI32 (wrap64 x / 4294967296))

/-- Method `StackFrame::binary_op` specialised to two-slot (`i64`)
operands. -/
def binary_op_i64 (op : Int → Int → Option Int) (s : Stack) : MathOutcome :=
  match s.popI64 with
  | none => .stackError .EmptyStack
  | some (b, s1) =>
    match s1.popI64 with
    | none => .stackError .EmptyStack
    | some (a, s2) =>
      match op a b with
      | none => .panicDivideByZero
      | some v =>
        match s2.pushI64 v with
        | .ok s3 => .ok s3
        | .error e => .stackError e

/-- The four integer division/remainder arms of `process` in math.rs, by
opcode byte: 108 `IDIV`, 109 `LDIV`, 112 `IREM`, 113 `LREM`.  Every other
arm of the handler (adds, shifts, floating point, `IINC`, the catch-all) is
summarised as `otherArm`; none of them is the subject of a claim. -/
def mathProcess (code : Nat) (s : Stack) : MathOutcome :=
  match code with
  | 108 => binary_op_i32 wrapping_div_i32 s
  | 109 => binary_op_i64 wrapping_div_i64 s
  | 112 => binary_op_i32 wrapping_rem_i32 s
  | 113 => binary_op_i64 wrapping_rem_i64 s
  | _ => .otherArm

/-! ## Store handler (`src/vm/interpreter/instructions/stores.rs`) -/

/-- Outcome of a stores.rs array arm.  `panicUnwrap` is `pop().unwrap()` on
an empty operand stack; `panicSlice` propagates the slice panic of
`Array::get`; `fatalUnreachable` is the `_ => unreachable!` arm of the
match; `otherArm` stands for the local-variable store arms (bytes
`54..=78`), which no claim touches. -/
inductive StoreOutcome where
  | ok (s : Stack)
  | vmError (e : RuntimeError)
  | panicUnwrap
  | panicSlice
  | fatalUnreachable
  | otherArm
deriving DecidableEq, Repr

/-- Method `StackFrame::store_array` with `V = i32`, verbatim from
stack.rs: pop `idx`, pop `array_idx`, read
`heap.get_array_value(array_idx, idx)`, convert with `from_slice`, and push
the result (the source writes `self.push(value);` and discards the
`Result`; a refused push therefore leaves the stack as it was).  No value
is popped for storing and nothing is written to the heap: the function
only reads it. -/
def store_array_i32 (objects : HeapObjects) (s : Stack) : StoreOutcome :=
  match s.pop with
  | none => .panicUnwrap
  | some (idx, s1) =>
    match s1.pop with
    | none => .panicUnwrap
    | some (array_idx, s2) =>
      match Heap.get_array_value objects array_idx idx with
      | .error e => .vmError e
      | .panicSlice => .panicSlice
      | .ok slots =>
        let value := from_slice_i32 slots
        match s2.push value with
        | .ok s3 => .ok s3
        | .error _ => .ok s2

/-- Method `StackFrame::store_array` with `V = i64` (`from_slice` builds an
`i64`, pushed as two slots; a refused push is discarded as above, modelled
as leaving the stack unchanged). -/
def store_array_i64 (objects : HeapObjects) (s : Stack) : StoreOutcome :=
  match s.pop with
  | none => .panicUnwrap
  | some (idx, s1) =>
    match s1.pop with
    | none => .panicUnwrap
    | some (array_idx, s2) =>
      match Heap.get_array_value objects array_idx idx with
      | .error e => .vmError e
      | .panicSlice => .panicSlice
      | .ok slots =>
        let value := from_slice_i64 slots
        match s2.pushI64 value with
        | .ok s3 => .ok s3
        | .error _ => .ok s2

/-- Method `StackFrame::store_array` with `V = f32`: `from_slice` is
`f32::from_bits(slot as u32)` and the push writes `to_bits() as i32` back,
i.e. `asI32 (wrap32 slot)`. -/
def store_array_f32 (objects : HeapObjects) (s : Stack) : StoreOutcome :=
  match s.pop with
  | none => .panicUnwrap
  | some (idx, s1) =>
    match s1.pop with
    | none => .panicUnwrap
    | some (array_idx, s2) =>
      match Heap.get_array_value objects array_idx idx with
      | .error e => .vmError e
      | .panicSlice => .panicSlice
      | .ok slots =>
        let value := asI32 (wrap32 (from_slice_i32 slots))
        match s2.push value with
        | .ok s3 => .ok s3
        | .error _ => .ok s2

/-- Method `StackFrame::store_array` with `V = f64`: `from_slice` builds an
`i64`, `from_bits` reads its pattern, and the push writes
`to_bits() as i64` back, i.e. `asI64` of that pattern, as two slots. -/
def store_array_f64 (objects : HeapObjects) (s : Stack) : StoreOutcome :=
  match s.pop with
  | none => .panicUnwrap
  | some (idx, s1) =>
    match s1.pop with
    | none => .panicUnwrap
    | some (array_idx, s2) =>
      match Heap.get_array_value objects array_idx idx with
      | .error e => .vmError e
      | .panicSlice => .panicSlice
      | .ok slots =>
        let value := asI64 (wrap64 (from_slice_i64 slots))
        match s2.pushI64 value with
        | .ok s3 => .ok s3
        | .error _ => .ok s2

/-- Handler `process` of stores.rs restricted to the array-store range, by
opcode byte.  The source matches `Opcode::from(code)`; the array arm lists
`IALOAD | AASTORE | BASTORE | CASTORE | SASTORE` — byte 46 (`IALOAD`)
instead of byte 79 (`IASTORE`) — so byte 79 falls through to the
`_ => unreachable!("Tried to store ...")` arm.  Bytes 80 `LASTORE`,
81 `FASTORE`, 82 `DASTORE` have their own arms; bytes `54..=78` are the
local-variable store arms (`otherArm` here); everything else reaches the
catch-all. -/
def storesProcess (code : Nat) (objects : HeapObjects) (s : Stack) : StoreOutcome :=
  match code with
  | 46 | 83 | 84 | 85 | 86 => store_array_i32 objects s
  | 80 => store_array_i64 objects s
  | 81 => store_array_f32 objects s
  | 82 => store_array_f64 objects s
  | c => if 54 ≤ c ∧ c ≤ 78 then .otherArm else .fatalUnreachable

/-! ## Frame operations as a state machine (for the frame invariant)

Every mutation a `StackFrame` undergoes during opcode execution goes
through `Stack::push`, `Stack::pop`, `Stack::clear` or an in-place write
`self.variables[index] = value`.  The operations below give those
primitives their exact mutation semantics (a refused push leaves the stack
untouched; a pop of an empty stack returns `None` and changes nothing; a
local-variable write never changes the length of the array — Rust panics
on an out-of-bounds index, `List.set` ignores it, and in both cases no
state with a different length ever exists). -/

/-- Mutation semantics of `push_ref`: on `ExceededStackSize` the frame is
unchanged (the `Vec` was never touched). -/
def StackFrame.push_ref_state (f : StackFrame) (v : Int) : StackFrame :=
  match f.operand_stack.push v with
  | .ok s => { f with operand_stack := s }
  | .error _ => f

/-- Mutation semantics of `pop_ref`: an empty stack stays empty. -/
def StackFrame.pop_ref_state (f : StackFrame) : StackFrame :=
  match f.operand_stack.pop with
  | some (_, s) => { f with operand_stack := s }
  | none => f

/-- Method `StackFrame::set_variable`: in-place write of one local slot. -/
def StackFrame.set_variable (f : StackFrame) (index : Nat) (v : Int) : StackFrame :=
  { f with vars := f.vars.set index v }

/-- One frame operation, covering the `StackValue` implementations for all
four operand categories, the local-variable writes, the pc moves and
`Stack::clear`. -/
inductive FrameOp where
  | pushI32 (v : Int)
  | popI32
  | pushI64 (v : Int)
  | popI64
  | pushF32 (bits : Nat)
  | popF32
  | pushF64 (bits : Nat)
  | popF64
  | setVarI32 (index : Nat) (v : Int)
  | setVarI64 (index : Nat) (v : Int)
  | nextPc
  | clearStack
deriving DecidableEq, Repr

/-- State transition of one frame operation, composed from the mutation
primitives exactly as the `StackValue` implementations compose them:
category-2 pushes are two `push_ref` in a row (low then high), category-2
pops two `pop_ref`, `f32`/`f64` go through their bit patterns. -/
def FrameOp.apply (op : FrameOp) (f : StackFrame) : StackFrame :=
  match op with
  | .pushI32 v => f.push_ref_state v
  | .popI32 => f.pop_ref_state
  | .pushI64 v =>
    (f.push_ref_state (asI32 v)).push_ref_state (asI32 (wrap64 v / 4294967296))
  | .popI64 => f.pop_ref_state.pop_ref_state
  | .pushF32 bits => f.push_ref_state (asI32 bits)
  | .popF32 => f.pop_ref_state
  | .pushF64 bits =>
    (f.push_ref_state (asI32 (asI64 bits))).push_ref_state
      (asI32 (wrap64 (asI64 bits) / 4294967296))
  | .popF64 => f.pop_ref_state.pop_ref_state
  | .setVarI32 index v => f.set_variable index v
  | .setVarI64 index v =>
    (f.set_variable index (asI32 v)).set_variable (index + 1)
      (asI32 (wrap64 v / 4294967296))
  | .nextPc => { f with pc := f.pc + 1 }
  | .clearStack => { f with operand_stack := ⟨f.operand_stack.capacity, []⟩ }

/-- A sequence of frame operations, applied left to right. -/
def applyOps (ops : List FrameOp) (f : StackFrame) : StackFrame :=
  ops.foldl (fun g op => op.apply g) f

/-- Frame invariant of the specification: the local array keeps its
creation length, the operand stack never exceeds its capacity, and the
capacity itself never changes. -/
def FrameInv (L S : Nat) (f : StackFrame) : Prop :=
  f.vars.length = L ∧ f.operand_stack.capacity = S ∧ f.operand_stack.inner.length ≤ S

lemma push_ref_state_inv {L S : Nat} {f : StackFrame} (h : FrameInv L S f) (v : Int) :
    FrameInv L S (f.push_ref_state v) := by
  obtain ⟨h1, h2, h3⟩ := h
  by_cases hc : f.operand_stack.capacity ≤ f.operand_stack.inner.length
  · simp only [StackFrame.push_ref_state, Stack.push, if_pos hc]
    exact ⟨h1, h2, h3⟩
  · simp only [StackFrame.push_ref_state, Stack.push, if_neg hc]
    refine ⟨h1, h2, ?_⟩
    simp only [List.length_cons]
    omega

lemma pop_ref_state_inv {L S : Nat} {f : StackFrame} (h : FrameInv L S f) :
    FrameInv L S f.pop_ref_state := by
  obtain ⟨h1, h2, h3⟩ := h
  unfold StackFrame.pop_ref_state Stack.pop
  cases hin : f.operand_stack.inner with
  | nil => exact ⟨h1, h2, h3⟩
  | cons v rest =>
    refine ⟨h1, h2, ?_⟩
    simp only
    rw [hin] at h3
    simp only [List.length_cons] at h3
    omega

lemma set_variable_inv {L S : Nat} {f : StackFrame} (h : FrameInv L S f)
    (index : Nat) (v : Int) : FrameInv L S (f.set_variable index v) := by
  obtain ⟨h1, h2, h3⟩ := h
  exact ⟨by simpa [StackFrame.set_variable] using h1, h2, h3⟩

lemma frameOp_apply_inv {L S : Nat} {f : StackFrame} (h : FrameInv L S f)
    (op : FrameOp) : FrameInv L S (op.apply f) := by
  cases op with
  | pushI32 v => exact push_ref_state_inv h v
  | popI32 => exact pop_ref_state_inv h
  | pushI64 v => exact push_ref_state_inv (push_ref_state_inv h _) _
  | popI64 => exact pop_ref_state_inv (pop_ref_state_inv h)
  | pushF32 bits => exact push_ref_state_inv h _
  | popF32 => exact pop_ref_state_inv h
  | pushF64 bits => exact push_ref_state_inv (push_ref_state_inv h _) _
  | popF64 => exact pop_ref_state_inv (pop_ref_state_inv h)
  | setVarI32 index v => exact set_variable_inv h index v
  | setVarI64 index v => exact set_variable_inv (set_variable_inv h index _) (index + 1) _
  | nextPc => exact h
  | clearStack => exact ⟨h.1, h.2.1, by simp [FrameOp.apply]⟩

lemma applyOps_inv {L S : Nat} {f : StackFrame} (h : FrameInv L S f)
    (ops : List FrameOp) : FrameInv L S (applyOps ops f) := by
  induction ops generalizing f with
  | nil => exact h
  | cons op rest ih => exact ih (frameOp_apply_inv h op)

lemma new_frame_inv (L S : Nat) (bytecode : List Nat) (classname : String) :
    FrameInv L S (StackFrame.new L S bytecode classname) := by
  refine ⟨by simp [StackFrame.new], rfl, by simp [StackFrame.new]⟩

/-! ## Helper lemmas -/

lemma from_to (x : Int) (h1 : -9223372036854775808 ≤ x)
    (h2 : x < 9223372036854775808) :
    from_i32_to_i64 (asI32 x) (asI32 (wrap64 x / 4294967296)) = x := by
  unfold from_i32_to_i64 asI64 asI32 wrap64 wrap32
  omega

lemma asI64_bits (b : Nat) (hb : b < 18446744073709551616) :
    -9223372036854775808 ≤ asI64 b ∧ asI64 b < 9223372036854775808 ∧
      wrap64 (asI64 b) = b := by
  unfold asI64 wrap64
  omega

/-- Push of an `i64` with two free slots succeeds with the low word below
the high word, and popping those two slots returns the value and the frame
exactly as they were. -/
lemma i64_roundtrip_aux (x : Int) (f : StackFrame)
    (hx1 : -9223372036854775808 ≤ x) (hx2 : x < 9223372036854775808)
    (hroom : f.operand_stack.inner.length + 2 ≤ f.operand_stack.capacity) :
    i64_push_onto x f =
      .ok { f with operand_stack :=
        ⟨f.operand_stack.capacity,
          asI32 (wrap64 x / 4294967296) :: asI32 x :: f.operand_stack.inner⟩ }
    ∧ i64_pop_from { f with operand_stack :=
        ⟨f.operand_stack.capacity,
          asI32 (wrap64 x / 4294967296) :: asI32 x :: f.operand_stack.inner⟩ } =
      .ok (x, f) := by
  have hp1 : ¬ (f.operand_stack.capacity ≤ f.operand_stack.inner.length) := by omega
  have hp2 : ¬ (f.operand_stack.capacity ≤ f.operand_stack.inner.length + 1) := by
    omega
  constructor
  · simp only [i64_push_onto, StackFrame.push_ref, Stack.push, if_neg hp1,
      List.length_cons, if_neg hp2, Except.bind]
  · simp only [i64_pop_from, StackFrame.pop_ref, Stack.pop, Except.bind, Except.map,
      from_to x hx1 hx2]

/-! ## Claim theorems -/

/-- C1.  The opcode dispatcher routes `0..=20` to constants, `21..=53` to
loads, `54..=86` to stores, `87..=95` to stack manipulation and `96..=132`
to arithmetic, but — contrary to the claim — bytes `133..=147`
(conversions) and `148..=166` (comparisons and branches) are NOT routed to
their handlers: they fall to the fatal `unreachable!` arm, although the
comparison handler exists and byte 148 is the defined opcode `LCMP`. -/
theorem dispatcher_conversions_comparisons_fatal :
    instructionsProcessRoute 0 = .constants ∧ instructionsProcessRoute 20 = .constants
  ∧ instructionsProcessRoute 21 = .loads ∧ instructionsProcessRoute 53 = .loads
  ∧ instructionsProcessRoute 54 = .stores ∧ instructionsProcessRoute 86 = .stores
  ∧ instructionsProcessRoute 87 = .stackManip
  ∧ instructionsProcessRoute 95 = .stackManip
  ∧ instructionsProcessRoute 96 = .math ∧ instructionsProcessRoute 132 = .math
  ∧ instructionsProcessRoute 133 = .fatalUnrecognized
  ∧ instructionsProcessRoute 147 = .fatalUnrecognized
  ∧ instructionsProcessRoute 148 = .fatalUnrecognized
  ∧ instructionsProcessRoute 166 = .fatalUnrecognized := by
  decide

/-- C2.  A constant pool whose first entry has tag 1 (Utf8) — here a
well-formed Utf8 entry with u16 length 3 and bytes "abc" — makes
`ConstantPool::new` execute `todo!()` and panic instead of decoding CESU-8
or surfacing `InvalidUtf8`; a tag-3 (Integer) entry parses fine, showing
the loop itself works. -/
theorem utf8_constant_entry_hits_todo :
    ConstantPool.new [0, 1, 1, 0, 3, 97, 98, 99] = .panicTodo
  ∧ ConstantPool.new [0, 1, 3, 0, 0, 0, 5] = .ok [some (.Integer 5)] [] := by
  decide

/-- C3.  An attribute whose resolved name is unrecognized does not make the
decoder skip `length` bytes: the name dispatch of `Attribute::new` falls
through to `unimplemented!` and panics, aborting the parse, while a known
name such as "Code" selects its parsing arm. -/
theorem unknown_attribute_hits_unimplemented :
    attributeNewDispatch "CustomThing" = .panicUnimplemented "CustomThing"
  ∧ attributeNewDispatch "Code" = .recognized "Code" := by
  decide

/-- C4.  For the int array `{10, 20, 30, 40}` (element size 4, little
endian bytes), `get_array_value` at index 2 does not return the slot `[30]`
claimed: the `1..4` range pattern of `Array::get` excludes size 4, so the
call is `Err(InvalidArrayEntrySize(4))`.  A byte array element `0xFF` is
decoded as `255`, not the sign-extended `-1`; only sizes 1..3 and 8 produce
slots, size 8 producing two. -/
theorem int_array_get_invalid_entry_size :
    ArrayObj.get ⟨"[I", [10, 0, 0, 0, 20, 0, 0, 0, 30, 0, 0, 0, 40, 0, 0, 0]⟩ 2 =
      .error (.InvalidArrayEntrySize 4)
  ∧ Heap.get_array_value
      [(1, .Array ⟨"[I", [10, 0, 0, 0, 20, 0, 0, 0, 30, 0, 0, 0, 40, 0, 0, 0]⟩)] 1 2 =
      .error (.InvalidArrayEntrySize 4)
  ∧ ArrayObj.get ⟨"[B", [255]⟩ 0 = .ok [255]
  ∧ ArrayObj.get ⟨"[J", [1, 0, 0, 0, 0, 0, 0, 0]⟩ 0 = .ok [0, 1] := by
  decide

/-- C5.  Executing `IDIV`, `LDIV`, `IREM` or `LREM` with a zero divisor on
top of the stack panics inside `wrapping_div` / `wrapping_rem` — there is
no `Arithmetic` error kind anywhere in the code — while a non-zero divisor
indeed uses wrapping arithmetic (`i32::MIN / -1` wraps to `i32::MIN`). -/
theorem integer_division_by_zero_panics :
    mathProcess 108 ⟨2, [0, 1]⟩ = .panicDivideByZero
  ∧ mathProcess 109 ⟨4, [0, 0, 0, 1]⟩ = .panicDivideByZero
  ∧ mathProcess 112 ⟨2, [0, 1]⟩ = .panicDivideByZero
  ∧ mathProcess 113 ⟨4, [0, 0, 0, 1]⟩ = .panicDivideByZero
  ∧ mathProcess 108 ⟨2, [2, 7]⟩ = .ok ⟨2, [3]⟩
  ∧ mathProcess 108 ⟨2, [-1, -2147483648]⟩ = .ok ⟨2, [-2147483648]⟩ := by
  decide

/-- C6.  Byte 79 (`IASTORE`) is not handled by the store dispatcher — the
array arm lists `IALOAD` in its place — and falls to `unreachable!`; and
`store_array` (here under `BASTORE`, byte 84, heap handle 1 holding the
byte array `[7, 8]`, operand stack `[0, 1]` top first) pops only two slots,
reads the element through `get_array_value` and PUSHES it, storing
nothing: the final stack is `[7]` and the heap is only ever read. -/
theorem array_store_reads_and_pushes :
    storesProcess 79 [] ⟨4, [0, 0, 0]⟩ = .fatalUnreachable
  ∧ storesProcess 84 [(1, .Array ⟨"[B", [7, 8]⟩)] ⟨5, [0, 1]⟩ = .ok ⟨5, [7]⟩ := by
  decide

/-- C7.  The constant pool access contract: `get 0` is `InvalidIndex 0`; an
index holding a stored entry returns it; a reserved slot is
`UnusableSlot i`; an index beyond the pool is `InvalidIndex i`; and a push
of a two-slot entry (Long/Double) makes the very next slot reserved. -/
theorem constant_pool_get_contract (pool : ConstantPool) (i : Nat)
    (e : ConstantPoolEntry) :
    (ConstantPool.get pool 0 = .error (.InvalidIndex 0))
  ∧ (1 ≤ i → pool.get? (i - 1) = some (some e) → ConstantPool.get pool i = .ok e)
  ∧ (1 ≤ i → pool.get? (i - 1) = some none →
      ConstantPool.get pool i = .error (.UnusableSlot i))
  ∧ (pool.length < i → ConstantPool.get pool i = .error (.InvalidIndex i))
  ∧ (e.uses_two_slots = true →
      ConstantPool.get (pool.push e) (pool.length + 2) =
        .error (.UnusableSlot (pool.length + 2))) := by
  refine ⟨by simp [ConstantPool.get], ?_, ?_, ?_, ?_⟩
  · intro h1 h2
    have hlt : i - 1 < pool.length := (List.get?_eq_some.mp h2).1
    have hne : ¬ (i = 0 ∨ pool.length < i) := by omega
    simp only [ConstantPool.get, if_neg hne, h2]
  · intro h1 h2
    have hlt : i - 1 < pool.length := (List.get?_eq_some.mp h2).1
    have hne : ¬ (i = 0 ∨ pool.length < i) := by omega
    simp only [ConstantPool.get, if_neg hne, h2]
  · intro h
    have hyes : i = 0 ∨ pool.length < i := Or.inr h
    simp only [ConstantPool.get, if_pos hyes]
  · intro h
    have hlen : (pool.push e).length = pool.length + 2 := by
      simp [ConstantPool.push, h]
    have hne : ¬ (pool.length + 2 = 0 ∨ (pool.push e).length < pool.length + 2) := by
      omega
    have hsl : (pool.push e).get? (pool.length + 2 - 1) = some none := by
      simp only [ConstantPool.push, h, if_pos]
      rw [List.append_assoc]
      rw [List.get?_append_right (by omega)]
      simp
    simp only [ConstantPool.get, if_neg hne, hsl]

/-- The constant pool of the source test `constant_pool` in
constant_pool.rs: Utf8, Integer, Long (slots 3-4), Double (slots 5-6),
Class, MethodRef, FieldRef. -/
def examplePool : ConstantPool :=
  ((((((ConstantPool.push [] (.Utf8 "hello world")).push
    (.Integer 1)).push (.Long 2)).push
    (.Double 4372995238176751616)).push (.Class 1)).push (.MethodRef 1 7)).push
    (.FieldRef 1 7)

/-- Witness for C7 on the pool of the source test: slot 4 is the reserved
slot of the Long, slot 0 and slot 10 are invalid, slot 1 holds the Utf8. -/
theorem constant_pool_get_contract_witness :
    ConstantPool.get examplePool 4 = .error (.UnusableSlot 4)
  ∧ ConstantPool.get examplePool 0 = .error (.InvalidIndex 0)
  ∧ ConstantPool.get examplePool 1 = .ok (.Utf8 "hello world")
  ∧ ConstantPool.get examplePool 10 = .error (.InvalidIndex 10) :=
  ⟨(constant_pool_get_contract examplePool 4 (.Long 2)).2.2.1 (by decide) (by rfl),
   (constant_pool_get_contract examplePool 0 (.Long 2)).1,
   (constant_pool_get_contract examplePool 1 (.Utf8 "hello world")).2.1 (by decide)
     (by rfl),
   (constant_pool_get_contract examplePool 10 (.Long 2)).2.2.2.1 (by decide)⟩

/-- C8.  After any sequence of frame operations on a frame created with
`max_locals = L` and `max_stack = S`, the local array still has length `L`
and the operand stack holds at most `S` slots; and a push onto a full
operand stack returns `ExceededStackSize` and leaves the frame unchanged. -/
theorem frame_invariant_preserved (L S : Nat) (bytecode : List Nat)
    (classname : String) (ops : List FrameOp) (f : StackFrame) (v : Int) :
    ((applyOps ops (StackFrame.new L S bytecode classname)).vars.length = L
      ∧ (applyOps ops (StackFrame.new L S bytecode classname)).operand_stack.inner.length ≤ S)
  ∧ (f.operand_stack.capacity ≤ f.operand_stack.inner.length →
      f.operand_stack.push v = .error .ExceededStackSize
        ∧ (FrameOp.pushI32 v).apply f = f) := by
  constructor
  · have h := applyOps_inv (new_frame_inv L S bytecode classname) ops
    exact ⟨h.1, h.2.1 ▸ h.2.2⟩
  · intro hfull
    constructor
    · simp only [Stack.push, if_pos hfull]
    · simp only [FrameOp.apply, StackFrame.push_ref_state, Stack.push, if_pos hfull]

/-- Witness for C8: a frame with 2 locals and stack capacity 3, run through
a push, a long push and a pop; and a full frame of capacity 1 that refuses
a push unchanged. -/
theorem frame_invariant_preserved_witness :
    ((applyOps [.pushI32 5, .pushI64 7, .popI32]
        (StackFrame.new 2 3 [] "Main")).vars.length = 2
      ∧ (applyOps [.pushI32 5, .pushI64 7, .popI32]
          (StackFrame.new 2 3 [] "Main")).operand_stack.inner.length ≤ 3)
  ∧ ((⟨0, none, [0], ⟨1, [9]⟩, [], "Main"⟩ : StackFrame).operand_stack.push 4 =
        .error .ExceededStackSize
      ∧ (FrameOp.pushI32 4).apply ⟨0, none, [0], ⟨1, [9]⟩, [], "Main"⟩ =
          ⟨0, none, [0], ⟨1, [9]⟩, [], "Main"⟩) :=
  ⟨(frame_invariant_preserved 2 3 [] "Main" [.pushI32 5, .pushI64 7, .popI32]
      ⟨0, none, [0], ⟨1, [9]⟩, [], "Main"⟩ 4).1,
   (frame_invariant_preserved 2 3 [] "Main" [.pushI32 5, .pushI64 7, .popI32]
      ⟨0, none, [0], ⟨1, [9]⟩, [], "Main"⟩ 4).2 (by decide)⟩

/-- C9.  With at least two free operand slots, pushing an `i64` (low word
first, high word on top) and popping it back (high then low, reassembled by
`from_i32_to_i64`) returns exactly the pushed value and restores the frame;
an `f64`, which travels through the same two slots as its bit pattern,
round-trips bit for bit. -/
theorem i64_f64_stack_roundtrip (x : Int) (bits : Nat) (f : StackFrame)
    (hx1 : -9223372036854775808 ≤ x) (hx2 : x < 9223372036854775808)
    (hbits : bits < 18446744073709551616)
    (hroom : f.operand_stack.inner.length + 2 ≤ f.operand_stack.capacity) :
    (∃ g, i64_push_onto x f = .ok g ∧ i64_pop_from g = .ok (x, f))
  ∧ (∃ g, f64_push_onto bits f = .ok g ∧ f64_pop_from g = .ok (bits, f)) := by
  obtain ⟨hle, hlt, hbit⟩ := asI64_bits bits hbits
  obtain ⟨hp1, hq1⟩ := i64_roundtrip_aux x f hx1 hx2 hroom
  obtain ⟨hp2, hq2⟩ := i64_roundtrip_aux (asI64 bits) f hle hlt hroom
  constructor
  · exact ⟨_, hp1, hq1⟩
  · refine ⟨_, hp2, ?_⟩
    simp only [f64_pop_from]
    rw [hq2]
    simp only [Except.map, hbit, Int.toNat_natCast]

/-- Witness for C9: the value `0x0123456789ABCDEF` and the bit pattern of
`1.0` on a frame of capacity 4 already holding one slot. -/
theorem i64_f64_stack_roundtrip_witness :
    (∃ g, i64_push_onto 81985529216486895 ⟨0, none, [], ⟨4, [3]⟩, [], "Main"⟩ = .ok g
      ∧ i64_pop_from g = .ok (81985529216486895, ⟨0, none, [], ⟨4, [3]⟩, [], "Main"⟩))
  ∧ (∃ g, f64_push_onto 4607182418800017408 ⟨0, none, [], ⟨4, [3]⟩, [], "Main"⟩ = .ok g
      ∧ f64_pop_from g =
          .ok (4607182418800017408, ⟨0, none, [], ⟨4, [3]⟩, [], "Main"⟩)) :=
  i64_f64_stack_roundtrip 81985529216486895 4607182418800017408
    ⟨0, none, [], ⟨4, [3]⟩, [], "Main"⟩ (by decide) (by decide) (by decide) (by decide)

/-- C10.  `Heap::get_field_value` returns `InvalidObjectAcess` carrying the
class and field names for the null handle 0, for every unallocated handle
and for every handle bound to an array; the function reads the heap through
a shared reference and contains no panicking operation, which the total
function of the immutable heap value reflects. -/
theorem get_field_value_invalid_access (objects : HeapObjects) (r : Int)
    (c fld : String)
    (h : r = 0 ∨ objects.lookup r = none ∨ ∃ a, objects.lookup r = some (.Array a)) :
    Heap.get_field_value objects r c fld = .error (.InvalidObjectAcess c fld) := by
  rcases h with h0 | hnone | ⟨a, harr⟩
  · simp [Heap.get_field_value, h0]
  · by_cases hz : r = 0
    · simp [Heap.get_field_value, hz]
    · simp [Heap.get_field_value, hz, hnone]
  · by_cases hz : r = 0
    · simp [Heap.get_field_value, hz]
    · simp [Heap.get_field_value, hz, harr]

/-- Witness for C10 on a one-object heap holding an array at handle 1: the
null handle, the unallocated handle 2 and the array handle all yield
`InvalidObjectAcess` with the names passed in. -/
theorem get_field_value_invalid_access_witness :
    Heap.get_field_value [(1, .Array ⟨"[I", []⟩)] 0 "Person" "name" =
      .error (.InvalidObjectAcess "Person" "name")
  ∧ Heap.get_field_value [(1, .Array ⟨"[I", []⟩)] 2 "Person" "name" =
      .error (.InvalidObjectAcess "Person" "name")
  ∧ Heap.get_field_value [(1, .Array ⟨"[I", []⟩)] 1 "Person" "name" =
      .error (.InvalidObjectAcess "Person" "name") :=
  ⟨get_field_value_invalid_access [(1, .Array ⟨"[I", []⟩)] 0 "Person" "name"
      (Or.inl rfl),
   get_field_value_invalid_access [(1, .Array ⟨"[I", []⟩)] 2 "Person" "name"
      (Or.inr (Or.inl (by decide))),
   get_field_value_invalid_access [(1, .Array ⟨"[I", []⟩)] 1 "Person" "name"
      (Or.inr (Or.inr ⟨⟨"[I", []⟩, by decide⟩))⟩

end Ignis
